import Mathlib

/-!
Verification of the community_pulse cleaning pipeline and health-scoring
engine (`src/utils/cleaner.py`, `src/utils/health_metrics.py`) via a shallow
embedding.  Datasets (pandas DataFrames) are lists of rows over a cell type
`Val`; the missing marker `Val.null` models `np.nan`/`NaT`/`None`.  Rational
numbers stand in for Python floats (the arithmetic involved is exact at the
scales exercised here).  Where the Python code would raise (division by zero
on a zero-row frame) or produce NaN, the embedding returns `none`.
-/

namespace CommunityPulse

/-- Cell value of a dataset: missing marker (np.nan / NaT / None), a string,
a non-negative integer, or a parsed date (encoded as y*10000+m*100+d, an
encoding monotone in chronological order). -/
inductive Val where
  | null : Val
  | vstr : String → Val
  | vnat : Nat → Val
  | vdate : Nat → Val
deriving DecidableEq

/-- A DataFrame: named columns and rows of cells, row i's cell for column j
at position j. -/
structure DF where
  cols : List String
  rows : List (List Val)
deriving DecidableEq

/-- Index of a column name in a column list (pandas `df.columns` lookup);
none when absent. -/
def findIdx (c : String) : List String → Option Nat
  | [] => none
  | x :: xs => if x = c then some 0 else (findIdx c xs).map (· + 1)

/-- Python `str(v)`: np.nan prints as "nan"; other values print themselves. -/
def pyStr : Val → String
  | Val.null => "nan"
  | Val.vstr s => s
  | Val.vnat n => toString n
  | Val.vdate d => toString d

/-- Python `str.lower()` (ASCII, which covers the data here). -/
def pyLower (s : String) : String := ⟨s.toList.map Char.toLower⟩

/-- Python `str.strip()`: drop leading and trailing whitespace. -/
def pyTrim (s : String) : String :=
  ⟨((s.toList.dropWhile Char.isWhitespace).reverse.dropWhile Char.isWhitespace).reverse⟩

/-- One step of Python `str.title()`: uppercase a letter that does not follow
a letter, lowercase a letter that does. -/
def titleGo : Bool → List Char → List Char
  | _, [] => []
  | prevAlpha, c :: cs =>
    (if c.isAlpha then (if prevAlpha then c.toLower else c.toUpper) else c)
      :: titleGo c.isAlpha cs

/-- Python `str.title()`. -/
def pyTitle (s : String) : String := ⟨titleGo false s.toList⟩

/-- Python `email.replace(" at ", "@")`: leftmost-first, non-overlapping
replacement of the four-character pattern. -/
def replaceAtGo : List Char → List Char
  | ' ' :: 'a' :: 't' :: ' ' :: rest => '@' :: replaceAtGo rest
  | c :: cs => c :: replaceAtGo cs
  | [] => []

/-- String form of the `" at " -> "@"` substitution in `fix_emails`. -/
def replaceAtSign (s : String) : String := ⟨replaceAtGo s.toList⟩

/-- Decision procedure for Python `re.match(r"[^@]+@[^@]+\.[^@]+", s)`
(cleaner.py line 76).  `re.match` anchors only at the start; with
backtracking the pattern matches iff the first `@` of `s` has a nonempty
prefix before it and the maximal `@`-free run after it contains a dot that
is neither its first nor its last character. -/
def matchBasicEmail (s : String) : Bool :=
  let cs := s.toList
  let a := cs.takeWhile (· ≠ '@')
  let rest := cs.dropWhile (· ≠ '@')
  match rest with
  | [] => false
  | _ :: tl =>
    let t := tl.takeWhile (· ≠ '@')
    !a.isEmpty && ((t.drop 1).dropLast.contains '.')

/-- Embedding of the inner `clean_email` of `DataCleaner.fix_emails`
(cleaner.py lines 70-78): missing -> None; else lowercase, strip, replace
" at " by "@", keep only if the basic regex matches. -/
def clean_email : Val → Option String
  | Val.null => none
  | v =>
    let e := replaceAtSign (pyTrim (pyLower (pyStr v)))
    if matchBasicEmail e then some e else none

/-- Keep-first filtering by key: drops an element whose key was already seen
(pandas `drop_duplicates()` with `keep='first'`, and the
`~temp_email.duplicated(keep='first')` mask of `remove_duplicates`). -/
def keepFirstBy {α κ : Type} [DecidableEq κ] (key : α → κ) : List κ → List α → List α
  | _, [] => []
  | seen, x :: xs =>
    if key x ∈ seen then keepFirstBy key seen xs
    else x :: keepFirstBy key (key x :: seen) xs

/-- Cleaner state: the working dataset `clean_df` together with the log.
(`raw_df` and the timestamps of the Python class play no role in the
claims settled here and carry no logic.) -/
abbrev CState := DF × List String

/-- Embedding of `DataCleaner.standardize_names` (cleaner.py lines 59-63):
when a Name column exists, rewrite it to `str(v).title()` and log; silent
no-op otherwise. -/
def standardize_names : CState → CState
  | (df, log) =>
    match findIdx "Name" df.cols with
    | none => (df, log)
    | some i =>
      let rows2 := df.rows.map
        (fun r => r.set i (Val.vstr (pyTitle (pyStr (r.getD i Val.null)))))
      ({ df with rows := rows2 }, log ++ ["Standardized Names to Title Case."])

/-- Embedding of `DataCleaner.fix_emails` (cleaner.py lines 65-87): when an
Email column exists, map every cell through `clean_email`, drop the rows
whose result is None, and log the number dropped; silent no-op otherwise. -/
def fix_emails : CState → CState
  | (df, log) =>
    match findIdx "Email" df.cols with
    | none => (df, log)
    | some i =>
      let rows1 := df.rows.map (fun r =>
        r.set i (match clean_email (r.getD i Val.null) with
                 | none => Val.null
                 | some e => Val.vstr e))
      let rows2 := rows1.filter (fun r => r.getD i Val.null ≠ Val.null)
      let nDropped := rows1.length - rows2.length
      ({ df with rows := rows2 },
       log ++ [s!"Fixed email formatting. Removed {nDropped} invalid emails."])

/-- Row transformation of `DataCleaner.remove_duplicates` (cleaner.py lines
42-57): `drop_duplicates()` keeps the first of fully identical rows; then —
only when an Email column exists — the mask
`~temp_email.duplicated(keep='first')` over `astype(str).str.lower()` keeps
the first row of each email key. -/
def dedupRows (cols : List String) (rows : List (List Val)) : List (List Val) :=
  let rows1 := keepFirstBy id [] rows
  match findIdx "Email" cols with
  | none => rows1
  | some i => keepFirstBy (fun r => pyLower (pyStr (r.getD i Val.null))) [] rows1

/-- Embedding of `DataCleaner.remove_duplicates` (cleaner.py lines 42-57):
apply `dedupRows` and always log the total number of rows removed — there
is no column guard around the full-row pass or the log statement. -/
def remove_duplicates : CState → CState
  | (df, log) =>
    let rows2 := dedupRows df.cols df.rows
    let removed := df.rows.length - rows2.length
    ({ df with rows := rows2 }, log ++ [s!"Removed {removed} duplicate rows."])

/-- Split a character list on a separator character (used to model the date
formats `pd.to_datetime` receives in this dataset). -/
def splitOnChar (sep : Char) : List Char → List (List Char)
  | [] => [[]]
  | c :: cs =>
    let r := splitOnChar sep cs
    if c = sep then [] :: r
    else
      match r with
      | [] => [[c]]
      | h :: t => (c :: h) :: t

/-- Numeric value of an all-digit nonempty character list; none otherwise. -/
def digitsVal (cs : List Char) : Option Nat :=
  if cs ≠ [] ∧ cs.all Char.isDigit then
    some (cs.foldl (fun a c => a * 10 + (c.toNat - 48)) 0)
  else none

/-- Encode a calendar date with plausibility bounds on month and day. -/
def mkDate (y m d : Nat) : Option Nat :=
  if 1 ≤ m ∧ m ≤ 12 ∧ 1 ≤ d ∧ d ≤ 31 then some (y * 10000 + m * 100 + d)
  else none

/-- Month-first parse with pandas' day-first fallback when the leading field
exceeds 12 (covers `MM/DD/YYYY` and `DD-MM-YYYY`). -/
def parseMDY (a b c : List Char) : Option Nat :=
  match digitsVal a, digitsVal b, digitsVal c with
  | some x, some y, some z =>
    if c.length = 4 then (if x ≤ 12 then mkDate z x y else mkDate z y x) else none
  | _, _, _ => none

/-- Model of `pd.to_datetime(s, errors='coerce')` restricted to the formats
this repository's data carries (spec §3): ISO `YYYY-MM-DD`, `MM/DD/YYYY`,
`DD-MM-YYYY`; anything else — including the sentinel "Unknown" — coerces to
NaT (`none`). -/
def parseDateString (s : String) : Option Nat :=
  match splitOnChar '-' s.toList with
  | [a, b, c] =>
    if a.length = 4 then
      match digitsVal a, digitsVal b, digitsVal c with
      | some y, some m, some d => mkDate y m d
      | _, _, _ => none
    else parseMDY a b c
  | _ =>
    match splitOnChar '/' s.toList with
    | [a, b, c] => parseMDY a b c
    | _ => none

/-- Cell-level `pd.to_datetime(..., errors='coerce')`: missing coerces to
NaT, an already-typed date passes through, strings parse by format; an
integer cell is treated as unparseable (Join_Date never holds integers in
this data model). -/
def parseDate : Val → Option Nat
  | Val.null => none
  | Val.vdate d => some d
  | Val.vstr s => parseDateString s
  | Val.vnat _ => none

/-- Model of `Series.mode()[0]` on the valid (non-NaT) dates: pandas returns
the tied most-frequent values in ascending sorted order, so `[0]` is the
smallest value among those of maximal multiplicity. -/
def modePick (l : List Nat) : List Nat → Option Nat
  | [] => none
  | x :: xs =>
    match modePick l xs with
    | none => some x
    | some b =>
      if l.count b < l.count x then some x
      else if l.count x = l.count b ∧ x < b then some x
      else some b

/-- The first entry of `Series.mode()` over a list of dates. -/
def modeMin (l : List Nat) : Option Nat := modePick l l

/-- The Join_Date column of a frame after `pd.to_datetime` coercion, as a
list of optional dates (`none` = NaT). -/
def parsedCol (df : DF) (i : Nat) : List (Option Nat) :=
  df.rows.map (fun r => parseDate (r.getD i Val.null))

/-- Embedding of `DataCleaner.clean_dates` (cleaner.py lines 89-108): when a
Join_Date column exists, coerce it through `parseDate` (bad values become
missing), then — if some value is missing and the mode is defined — fill
the missing cells with `mode()[0]` and log the imputation count, otherwise
log that nothing was imputed; silent no-op when the column is absent. -/
def clean_dates : CState → CState
  | (df, log) =>
    match findIdx "Join_Date" df.cols with
    | none => (df, log)
    | some i =>
      let parsed := parsedCol df i
      let rows1 := (df.rows.zip parsed).map (fun p =>
        p.1.set i (match p.2 with
                   | none => Val.null
                   | some d => Val.vdate d))
      let nFixed := (parsed.filter Option.isNone).length
      let valids := parsed.filterMap id
      if nFixed > 0 ∧ valids ≠ [] then
        match modeMin valids with
        | some md =>
          let rows2 := rows1.map (fun r =>
            if r.getD i Val.null = Val.null then r.set i (Val.vdate md) else r)
          ({ df with rows := rows2 },
           log ++ [s!"Standardized Dates. Imputed {nFixed} missing/bad dates with mode."])
        | none =>
          ({ df with rows := rows1 },
           log ++ ["Standardized Dates. No missing values found or mode undefined."])
      else
        ({ df with rows := rows1 },
         log ++ ["Standardized Dates. No missing values found or mode undefined."])

/-- Embedding of `DataCleaner.handle_missing_values` (cleaner.py lines
110-115): when an Event_Attendance column exists, count its missing cells,
fill them with 0 and log the count; silent no-op otherwise. -/
def handle_missing_values : CState → CState
  | (df, log) =>
    match findIdx "Event_Attendance" df.cols with
    | none => (df, log)
    | some i =>
      let n := (df.rows.filter (fun r => r.getD i Val.null = Val.null)).length
      let rows2 := df.rows.map (fun r =>
        if r.getD i Val.null = Val.null then r.set i (Val.vnat 0) else r)
      ({ df with rows := rows2 },
       log ++ [s!"Filled {n} missing Attendance records with 0."])

/-- Embedding of `DataCleaner.clean_all` (cleaner.py lines 21-40): the
driver takes no step selection — it unconditionally runs all five steps in
the fixed order standardize_names, fix_emails, remove_duplicates,
clean_dates, handle_missing_values. -/
def clean_all (st : CState) : CState :=
  handle_missing_values (clean_dates (remove_duplicates (fix_emails (standardize_names st))))

/-- Character class `[a-zA-Z0-9._%+-]` of the strict email localpart. -/
def isLocalChar (c : Char) : Bool :=
  c.isAlpha || c.isDigit || c = '.' || c = '_' || c = '%' || c = '+' || c = '-'

/-- Character class `[a-zA-Z0-9.-]` of the strict email domain. -/
def isDomainChar (c : Char) : Bool :=
  c.isAlpha || c.isDigit || c = '.' || c = '-'

/-- Decision procedure for Python
`re.match(r'^[a-zA-Z0-9._%+-]+@[a-zA-Z0-9.-]+\.[a-zA-Z]{2,}$', s)`
(health_metrics.py line 120).  The localpart runs to the first `@`; the
remainder splits at its last dot into a nonempty domain over its character
class and a terminal TLD of at least two letters. -/
def matchStrictEmail (s : String) : Bool :=
  let cs := s.toList
  let loc := cs.takeWhile (· ≠ '@')
  let rest := cs.dropWhile (· ≠ '@')
  match rest with
  | [] => false
  | _ :: dom =>
    let tld := (dom.reverse.takeWhile (· ≠ '.')).reverse
    let base := ((dom.reverse.dropWhile (· ≠ '.')).reverse).dropLast
    !loc.isEmpty && loc.all isLocalChar &&
      dom.contains '.' && !base.isEmpty && base.all isDomainChar &&
      decide (2 ≤ tld.length) && tld.all Char.isAlpha

/-- Embedding of `DataHealthMetrics._is_valid_email` (health_metrics.py
lines 105-121): false for missing, else strip and match the strict
pattern. -/
def is_valid_email (v : Val) : Bool :=
  match v with
  | Val.null => false
  | _ => matchStrictEmail (pyTrim (pyStr v))

/-- Embedding of `DataHealthMetrics._is_valid_name` (health_metrics.py
lines 123-139): false for missing, else strip, require nonempty and every
character a letter, whitespace, apostrophe, dot or hyphen. -/
def is_valid_name (v : Val) : Bool :=
  match v with
  | Val.null => false
  | _ =>
    let s := (pyTrim (pyStr v)).toList
    !s.isEmpty && s.all (fun c =>
      c.isAlpha || c.isWhitespace || c = Char.ofNat 39 || c = '.' || c = '-')

/-- Embedding of `DataHealthMetrics._count_valid_dates` (health_metrics.py
lines 141-156): number of cells of the column that `pd.to_datetime`
coercion parses; an absent column raises KeyError, caught and reported as
0. -/
def count_valid_dates (df : DF) (c : String) : Nat :=
  match findIdx c df.cols with
  | none => 0
  | some i => ((df.rows.map (fun r => parseDate (r.getD i Val.null))).filterMap id).length

/-- Number of cells of a column satisfying a predicate (the
`self.df[col].apply(pred).sum()` idiom of `calculate_formatting_score`). -/
def countValidIn (df : DF) (c : String) (p : Val → Bool) : Nat :=
  match findIdx c df.cols with
  | none => 0
  | some i => (df.rows.filter (fun r => p (r.getD i Val.null))).length

/-- Pandas `df.size`: number of cells. -/
def dfSize (df : DF) : Nat := df.cols.length * df.rows.length

/-- Pandas `df.isna().sum().sum()`: number of missing cells. -/
def nullCount (df : DF) : Nat :=
  df.rows.foldl (fun acc r => acc + (r.filter (· = Val.null)).length) 0

/-- Embedding of `DataHealthMetrics.calculate_completeness_score`
(health_metrics.py lines 39-52): 0.0 for an empty frame (pandas `df.empty`:
either axis has length 0), else 100 · non-null cells / total cells. -/
def calculate_completeness_score (df : DF) : ℚ :=
  if df.rows.length = 0 ∨ df.cols.length = 0 then 0
  else ((dfSize df - nullCount df : ℕ) : ℚ) / (dfSize df : ℚ) * 100

/-- Embedding of `DataHealthMetrics.calculate_duplicate_score`
(health_metrics.py lines 54-68): 100.0 for zero rows, else
100 · unique rows / total rows. -/
def calculate_duplicate_score (df : DF) : ℚ :=
  if df.rows.length = 0 then 100
  else ((keepFirstBy id [] df.rows).length : ℚ) / (df.rows.length : ℚ) * 100

/-- Per-column contribution `(valid / len(self.df)) * 100` of
`calculate_formatting_score`; on a zero-row frame the Python division by
`len(self.df) = 0` raises ZeroDivisionError (or yields NaN on the
numpy-typed date count), modeled as `none`. -/
def colScore (df : DF) (validCount : Nat) : Option ℚ :=
  if df.rows.length = 0 then none
  else some ((validCount : ℚ) / (df.rows.length : ℚ) * 100)

/-- The list of per-column scores `calculate_formatting_score` accumulates,
in source order Email, Join_Date, Name, each present column contributing
one entry. -/
def formattingParts (df : DF) : List (Option ℚ) :=
  (if "Email" ∈ df.cols then [colScore df (countValidIn df "Email" is_valid_email)] else []) ++
  (if "Join_Date" ∈ df.cols then [colScore df (count_valid_dates df "Join_Date")] else []) ++
  (if "Name" ∈ df.cols then [colScore df (countValidIn df "Name" is_valid_name)] else [])

/-- Embedding of `DataHealthMetrics.calculate_formatting_score`
(health_metrics.py lines 70-103): the average of the per-column scores of
whichever of Email, Join_Date, Name are present, 100.0 when none are;
`none` when any present column's score is undefined (zero-row division). -/
def calculate_formatting_score (df : DF) : Option ℚ :=
  let parts := formattingParts df
  if parts.any Option.isNone then none
  else if parts.isEmpty then some 100
  else some ((parts.filterMap id).foldl (· + ·) 0 / (parts.length : ℚ))

/-- Round-half-to-even to an integer (Python `round`'s tie rule). -/
def roundHalfEven (q : ℚ) : ℤ :=
  let f := ⌊q⌋
  if q - f < 1/2 then f
  else if q - f > 1/2 then f + 1
  else if f % 2 = 0 then f else f + 1

/-- Python `round(x, 1)`. -/
def round1 (q : ℚ) : ℚ := (roundHalfEven (10 * q) : ℚ) / 10

/-- Embedding of `DataHealthMetrics.calculate_overall_health_score`
(health_metrics.py lines 158-177): the weighted sum
0.4·completeness + 0.3·duplicate + 0.3·formatting rounded to one decimal;
undefined whenever the formatting score is. -/
def calculate_overall_health_score (df : DF) : Option ℚ :=
  (calculate_formatting_score df).map (fun f =>
    round1 (calculate_completeness_score df * (4/10) +
            calculate_duplicate_score df * (3/10) + f * (3/10)))

/-- Heap of DataFrame objects: a Python variable holding a DataFrame is an
index into this store; `df.copy()` allocates a fresh cell with the same
value, while the in-place column assignments of the cleaner overwrite the
referenced cell. -/
abbrev Store := List DF

/-- The empty frame, used as the out-of-range default of store lookups. -/
def dfNil : DF := ⟨[], []⟩

/-- A DataCleaner object: references to its `raw_df` and `clean_df` cells
plus its log. -/
structure CleanerObj where
  raw : Nat
  clean : Nat
  log : List String

/-- Embedding of `DataCleaner.__init__` (cleaner.py lines 8-19): `raw_df`
and `clean_df` are both `df.copy()` — fresh cells appended to the store,
never aliases of the caller's cell. -/
def cleaner_init (σ : Store) (caller : Nat) : Store × CleanerObj :=
  (σ ++ [σ.getD caller dfNil, σ.getD caller dfNil], ⟨σ.length, σ.length + 1, []⟩)

/-- Names of the five cleaning steps. -/
inductive StepName where
  | standardizeNames
  | fixEmails
  | removeDuplicates
  | cleanDates
  | handleMissingValues
deriving DecidableEq

/-- The transformation each named step performs on (clean_df, log). -/
def stepFun : StepName → CState → CState
  | StepName.standardizeNames => standardize_names
  | StepName.fixEmails => fix_emails
  | StepName.removeDuplicates => remove_duplicates
  | StepName.cleanDates => clean_dates
  | StepName.handleMissingValues => handle_missing_values

/-- A cleaning-step method call on the heap: read `self.clean_df`,
transform, write back to the same cell, extend the log. -/
def cleaner_step (s : StepName) : Store × CleanerObj → Store × CleanerObj
  | (σ, c) =>
    let out := stepFun s (σ.getD c.clean dfNil, c.log)
    (σ.set c.clean out.1, ⟨c.raw, c.clean, out.2⟩)

/-- Any sequence of cleaning-step method calls. -/
def cleaner_run (steps : List StepName) (st : Store × CleanerObj) : Store × CleanerObj :=
  steps.foldl (fun acc s => cleaner_step s acc) st

/-- Embedding of `DataHealthMetrics.__init__` (health_metrics.py lines
29-37): `self.df = df.copy()` — a fresh cell. -/
def metrics_init (σ : Store) (caller : Nat) : Store × Nat :=
  (σ ++ [σ.getD caller dfNil], σ.length)

/-- Names of the four public score methods. -/
inductive MetricCall where
  | completeness
  | duplicates
  | formatting
  | overall
deriving DecidableEq

/-- A score-method call on the heap: every method body of
health_metrics.py only reads `self.df` (there is no assignment), so the
store comes back unchanged alongside the computed value. -/
def metrics_call : MetricCall → Store → Nat → Option ℚ × Store
  | MetricCall.completeness, σ, ref => (some (calculate_completeness_score (σ.getD ref dfNil)), σ)
  | MetricCall.duplicates, σ, ref => (some (calculate_duplicate_score (σ.getD ref dfNil)), σ)
  | MetricCall.formatting, σ, ref => (calculate_formatting_score (σ.getD ref dfNil), σ)
  | MetricCall.overall, σ, ref => (calculate_overall_health_score (σ.getD ref dfNil), σ)

/-- Any sequence of score-method calls. -/
def metrics_run (calls : List MetricCall) (σ : Store) (ref : Nat) : Store :=
  calls.foldl (fun acc c => (metrics_call c acc ref).2) σ

/-! Helper lemmas shared by the claim theorems. -/

theorem findIdx_eq_none (c : String) (l : List String) (h : c ∉ l) :
    findIdx c l = none := by
  induction l with
  | nil => rfl
  | cons x xs ih =>
    simp only [List.mem_cons, not_or] at h
    have hx : ¬ x = c := fun he => h.1 he.symm
    simp [findIdx, hx, ih h.2]

theorem getD_set_self {α : Type} (l : List α) (i : Nat) (v d : α) (h : i < l.length) :
    (l.set i v).getD i d = v := by
  simp [List.getD, List.getElem?_set, h]

theorem getD_set_of_le {α : Type} (l : List α) (i : Nat) (v d : α) (h : l.length ≤ i) :
    (l.set i v).getD i d = d := by
  rw [List.set_eq_of_length_le h]
  exact List.getD_eq_default _ _ h

theorem getD_set_ne {α : Type} (l : List α) (i j : Nat) (v d : α) (h : i ≠ j) :
    (l.set i v).getD j d = l.getD j d := by
  simp [List.getD, List.getElem?_set_ne h]

theorem getD_append_lt {α : Type} (l l' : List α) (j : Nat) (d : α) (h : j < l.length) :
    (l ++ l').getD j d = l.getD j d := by
  simp [List.getD, List.getElem?_append, h]

theorem keepFirstBy_not_seen {α κ : Type} [DecidableEq κ] (key : α → κ) :
    ∀ (l : List α) (seen : List κ) (x : α), x ∈ keepFirstBy key seen l → key x ∉ seen := by
  intro l
  induction l with
  | nil => intro seen x hx; simp [keepFirstBy] at hx
  | cons a as ih =>
    intro seen x hx
    simp only [keepFirstBy] at hx
    by_cases ha : key a ∈ seen
    · rw [if_pos ha] at hx; exact ih seen x hx
    · rw [if_neg ha] at hx
      rcases List.mem_cons.mp hx with h1 | h2
      · subst h1; exact ha
      · intro hseen
        exact ih (key a :: seen) x h2 (List.mem_cons_of_mem _ hseen)

theorem keepFirstBy_pairwise {α κ : Type} [DecidableEq κ] (key : α → κ) :
    ∀ (l : List α) (seen : List κ),
      (keepFirstBy key seen l).Pairwise (fun a b => key a ≠ key b) := by
  intro l
  induction l with
  | nil => intro seen; simp [keepFirstBy]
  | cons a as ih =>
    intro seen
    simp only [keepFirstBy]
    by_cases ha : key a ∈ seen
    · rw [if_pos ha]; exact ih seen
    · rw [if_neg ha]
      refine List.Pairwise.cons ?_ (ih (key a :: seen))
      intro b hb hk
      exact keepFirstBy_not_seen key as (key a :: seen) b hb (by rw [← hk]; exact List.mem_cons_self _ _)

theorem keepFirstBy_eq_self {α κ : Type} [DecidableEq κ] (key : α → κ) :
    ∀ (l : List α) (seen : List κ),
      l.Pairwise (fun a b => key a ≠ key b) → (∀ x ∈ l, key x ∉ seen) →
      keepFirstBy key seen l = l := by
  intro l
  induction l with
  | nil => intro seen _ _; rfl
  | cons a as ih =>
    intro seen hp hs
    have ha : key a ∉ seen := hs a (List.mem_cons_self _ _)
    simp only [keepFirstBy, if_neg ha]
    refine congrArg (a :: ·) (ih (key a :: seen) (List.Pairwise.of_cons hp) ?_)
    intro x hx
    simp only [List.mem_cons, not_or]
    exact ⟨fun he => (List.pairwise_cons.mp hp).1 x hx he.symm, hs x (List.mem_cons_of_mem _ hx)⟩

theorem keepFirstBy_idem {α κ : Type} [DecidableEq κ] (key : α → κ) (l : List α) :
    keepFirstBy key [] (keepFirstBy key [] l) = keepFirstBy key [] l :=
  keepFirstBy_eq_self key _ [] (keepFirstBy_pairwise key l []) (by intro x _; simp)

theorem clean_email_sound (v : Val) (e : String) (h : clean_email v = some e) :
    matchBasicEmail e = true := by
  cases v with
  | null => simp [clean_email] at h
  | vstr s =>
    simp only [clean_email] at h
    split at h
    · exact Option.some.inj h ▸ (by assumption)
    · exact absurd h (by simp)
  | vnat n =>
    simp only [clean_email] at h
    split at h
    · exact Option.some.inj h ▸ (by assumption)
    · exact absurd h (by simp)
  | vdate d =>
    simp only [clean_email] at h
    split at h
    · exact Option.some.inj h ▸ (by assumption)
    · exact absurd h (by simp)

theorem modePick_is_some (l : List Nat) (x : Nat) (xs : List Nat) :
    (modePick l (x :: xs)).isSome := by
  cases hm : modePick l xs with
  | none => simp [modePick, hm]
  | some b =>
    simp only [modePick, hm]
    split
    · simp
    · split <;> simp

theorem modePick_spec (l : List Nat) :
    ∀ (p : List Nat) (m : Nat), modePick l p = some m →
      m ∈ p ∧ ∀ x ∈ p, l.count x < l.count m ∨ (l.count x = l.count m ∧ m ≤ x) := by
  intro p
  induction p with
  | nil => intro m hm; simp [modePick] at hm
  | cons a as ih =>
    intro m hm
    simp only [modePick] at hm
    rcases hr : modePick l as with _ | b
    · rw [hr] at hm
      obtain rfl : a = m := Option.some.inj hm
      have : as = [] := by
        cases as with
        | nil => rfl
        | cons y ys => exact absurd (congrArg Option.isSome hr) (by simp [modePick_is_some])
      subst this
      exact ⟨List.mem_singleton.mpr rfl, by intro x hx; rw [List.mem_singleton.mp hx]; omega⟩
    · rw [hr] at hm
      have hm' : (if l.count b < l.count a then some a
          else if l.count a = l.count b ∧ a < b then some a else some b) = some m := hm
      clear hm
      rename' hm' => hm
      obtain ⟨hbmem, hb⟩ := ih b hr
      by_cases h1 : l.count b < l.count a
      · rw [if_pos h1] at hm
        obtain rfl : a = m := Option.some.inj hm
        refine ⟨List.mem_cons_self _ _, ?_⟩
        intro x hx
        rcases List.mem_cons.mp hx with rfl | hx'
        · omega
        · rcases hb x hx' with h | h <;> omega
      · rw [if_neg h1] at hm
        by_cases h2 : l.count a = l.count b ∧ a < b
        · rw [if_pos h2] at hm
          obtain rfl : a = m := Option.some.inj hm
          refine ⟨List.mem_cons_self _ _, ?_⟩
          intro x hx
          rcases List.mem_cons.mp hx with rfl | hx'
          · omega
          · rcases hb x hx' with h | h <;> omega
        · rw [if_neg h2] at hm
          obtain rfl : b = m := Option.some.inj hm
          refine ⟨List.mem_cons_of_mem _ hbmem, ?_⟩
          intro x hx
          rcases List.mem_cons.mp hx with rfl | hx'
          · rw [not_and_or] at h2
            rcases h2 with h2 | h2 <;> omega
          · exact hb x hx'

theorem modeMin_spec (l : List Nat) (m : Nat) (h : modeMin l = some m) :
    m ∈ l ∧ ∀ x ∈ l, l.count x < l.count m ∨ (l.count x = l.count m ∧ m ≤ x) :=
  modePick_spec l l m h

theorem zip_map_self {α β γ : Type} (l : List α) (g : α → β) (h : α × β → γ) :
    (l.zip (l.map g)).map h = l.map (fun r => h (r, g r)) := by
  induction l with
  | nil => rfl
  | cons a as ih =>
    simp only [List.zip] at ih ⊢
    simp [ih]

theorem modeMin_isSome (l : List Nat) (h : l ≠ []) : (modeMin l).isSome := by
  cases l with
  | nil => exact absurd rfl h
  | cons a as => exact modePick_is_some (a :: as) a as

theorem fillCell_eq (r : List Val) (i : Nat) (p : Option Nat) (m : Nat) :
    (if (r.set i (match p with | none => Val.null | some d => Val.vdate d)).getD i Val.null
          = Val.null
     then (r.set i (match p with | none => Val.null | some d => Val.vdate d)).set i (Val.vdate m)
     else r.set i (match p with | none => Val.null | some d => Val.vdate d)) =
      r.set i (match p with | none => Val.vdate m | some d => Val.vdate d) := by
  by_cases hlen : i < r.length
  · cases p with
    | none =>
      rw [if_pos (getD_set_self r i _ Val.null hlen)]
      exact List.set_set _ _ _ _
    | some d =>
      rw [if_neg (by rw [getD_set_self r i _ Val.null hlen]; simp)]
  · have hle := Nat.le_of_not_lt hlen
    rw [List.set_eq_of_length_le hle, List.set_eq_of_length_le hle,
      List.set_eq_of_length_le hle, List.getD_eq_default _ _ hle]
    simp

theorem dedupRows_idem (cols : List String) (rows : List (List Val)) :
    dedupRows cols (dedupRows cols rows) = dedupRows cols rows := by
  cases hE : findIdx "Email" cols with
  | none =>
    simp only [dedupRows, hE]
    exact keepFirstBy_idem id rows
  | some i =>
    simp only [dedupRows, hE]
    have hek : (keepFirstBy (fun r : List Val => pyLower (pyStr (r.getD i Val.null))) []
        (keepFirstBy id [] rows)).Pairwise
          (fun a b => pyLower (pyStr (a.getD i Val.null)) ≠ pyLower (pyStr (b.getD i Val.null))) :=
      keepFirstBy_pairwise _ _ []
    have hid : (keepFirstBy (fun r : List Val => pyLower (pyStr (r.getD i Val.null))) []
        (keepFirstBy id [] rows)).Pairwise (fun a b => a ≠ b) :=
      hek.imp (fun h hab => h (by rw [hab]))
    rw [keepFirstBy_eq_self id _ [] hid (by intro x _; simp)]
    exact keepFirstBy_eq_self _ _ [] hek (by intro x _; simp)

/-! Claim theorems. -/

/-- C2: the pipeline driver `clean_all` accepts no step selection — it is a
nullary method that unconditionally runs all five steps: on a dataset
carrying all five target columns it emits one log entry per step, so no
proper subset of steps can ever be selected through it (its caller
app.py line 669 passes `steps=selected_steps` and gets a TypeError). -/
theorem C2_clean_all_runs_all_steps :
    (clean_all (⟨["Name", "Email", "Join_Date", "Event_Attendance", "Role"],
        [[Val.vstr "john doe", Val.vstr "john@example.com", Val.vstr "2023-01-15",
          Val.vnat 5, Val.vstr "Member"]]⟩, [])).2 =
      ["Standardized Names to Title Case.",
       "Fixed email formatting. Removed 0 invalid emails.",
       "Removed 0 duplicate rows.",
       "Standardized Dates. No missing values found or mode undefined.",
       "Filled 0 missing Attendance records with 0."] := by decide

/-- C3: on a zero-row dataset that has an Email column, the formatting
score (and with it the overall score) is undefined — the code divides the
valid-cell count by `len(self.df) = 0` — while completeness and duplicate
scores keep their defined empty-frame values and a frame with none of the
three checked columns scores a vacuous 100. -/
theorem C3_formatting_undefined_on_empty_with_email :
    calculate_formatting_score ⟨["Email"], []⟩ = none ∧
    calculate_overall_health_score ⟨["Email"], []⟩ = none ∧
    calculate_formatting_score ⟨[], []⟩ = some 100 ∧
    calculate_completeness_score ⟨["Email"], []⟩ = 0 ∧
    calculate_duplicate_score ⟨["Email"], []⟩ = 100 := by decide

/-- C6: the overall health score is the fixed weighted combination
0.4·completeness + 0.3·duplicate + 0.3·formatting of the component scores
of the same dataset, rounded to one decimal place, whenever the formatting
component is defined. -/
theorem C6_overall_weighted_sum (df : DF) (f : ℚ)
    (h : calculate_formatting_score df = some f) :
    calculate_overall_health_score df =
      some (round1 (calculate_completeness_score df * (4/10) +
                    calculate_duplicate_score df * (3/10) + f * (3/10))) := by
  simp [calculate_overall_health_score, h]

theorem C6_witness :
    calculate_formatting_score ⟨["Role"], [[Val.vstr "Member"]]⟩ = some 100 ∧
    calculate_overall_health_score ⟨["Role"], [[Val.vstr "Member"]]⟩ =
      some (round1 (calculate_completeness_score ⟨["Role"], [[Val.vstr "Member"]]⟩ * (4/10) +
                    calculate_duplicate_score ⟨["Role"], [[Val.vstr "Member"]]⟩ * (3/10) +
                    100 * (3/10))) :=
  ⟨by decide, C6_overall_weighted_sum ⟨["Role"], [[Val.vstr "Member"]]⟩ 100 (by decide)⟩

/-- C7: on a dataset with zero rows the duplicate score is exactly 100 and
the completeness score exactly 0 — deliberately opposite conventions. -/
theorem C7_empty_dataset_conventions (df : DF) (h : df.rows = []) :
    calculate_duplicate_score df = 100 ∧ calculate_completeness_score df = 0 := by
  constructor
  · simp [calculate_duplicate_score, h]
  · simp [calculate_completeness_score, h]

theorem C7_witness :
    (⟨["Email", "Name"], []⟩ : DF).rows = [] ∧
    calculate_duplicate_score ⟨["Email", "Name"], []⟩ = 100 ∧
    calculate_completeness_score ⟨["Email", "Name"], []⟩ = 0 :=
  ⟨rfl, C7_empty_dataset_conventions ⟨["Email", "Name"], []⟩ rfl⟩

/-- C8: remove_duplicates is idempotent — reapplied to its own output it
removes 0 additional rows, leaving the dataset unchanged and logging a
zero count. -/
theorem C8_remove_duplicates_idempotent (df : DF) (log : List String) :
    remove_duplicates (remove_duplicates (df, log)) =
      ((remove_duplicates (df, log)).1,
       (remove_duplicates (df, log)).2 ++ ["Removed 0 duplicate rows."]) := by
  simp only [remove_duplicates]
  rw [dedupRows_idem]
  simp [Nat.sub_self]
  rfl

/-- C10: because `remove_duplicates` keys rows on `astype(str)` of the
Email cell, every missing Email stringifies to "nan" and all such rows
share one key, so at most one row with a missing Email survives. -/
theorem C10_missing_emails_collapse (df : DF) (log : List String) (i : Nat)
    (hi : findIdx "Email" df.cols = some i) :
    ((remove_duplicates (df, log)).1.rows.filter
        (fun r => r.getD i Val.null = Val.null)).length ≤ 1 := by
  simp only [remove_duplicates, dedupRows, hi]
  have hp : (keepFirstBy (fun r : List Val => pyLower (pyStr (r.getD i Val.null))) []
      (keepFirstBy id [] df.rows)).Pairwise
        (fun a b => pyLower (pyStr (a.getD i Val.null)) ≠ pyLower (pyStr (b.getD i Val.null))) :=
    keepFirstBy_pairwise _ _ []
  have hf := hp.filter (fun r => decide (r.getD i Val.null = Val.null))
  cases hl : (keepFirstBy (fun r : List Val => pyLower (pyStr (r.getD i Val.null))) []
      (keepFirstBy id [] df.rows)).filter
        (fun r => decide (r.getD i Val.null = Val.null)) with
  | nil => simp [hl]
  | cons x xs =>
    cases xs with
    | nil => simp [hl]
    | cons y ys =>
      exfalso
      rw [hl] at hf
      have hxmem : x ∈ (keepFirstBy (fun r : List Val => pyLower (pyStr (r.getD i Val.null))) []
          (keepFirstBy id [] df.rows)).filter (fun r => decide (r.getD i Val.null = Val.null)) := by
        rw [hl]; exact List.mem_cons_self _ _
      have hymem : y ∈ (keepFirstBy (fun r : List Val => pyLower (pyStr (r.getD i Val.null))) []
          (keepFirstBy id [] df.rows)).filter (fun r => decide (r.getD i Val.null = Val.null)) := by
        rw [hl]; exact List.mem_cons_of_mem _ (List.mem_cons_self _ _)
      have hx : x.getD i Val.null = Val.null := by
        have := (List.mem_filter.mp hxmem).2; simpa using this
      have hy : y.getD i Val.null = Val.null := by
        have := (List.mem_filter.mp hymem).2; simpa using this
      have hxy := (List.pairwise_cons.mp hf).1 y (List.mem_cons_self _ _)
      exact hxy (by rw [hx, hy])

theorem C10_witness :
    findIdx "Email" ["Name", "Email"] = some 1 ∧
    ((remove_duplicates (⟨["Name", "Email"],
        [[Val.vstr "A", Val.null], [Val.vstr "B", Val.null]]⟩, [])).1.rows.filter
        (fun r => r.getD 1 Val.null = Val.null)).length ≤ 1 :=
  ⟨by decide,
   C10_missing_emails_collapse
     ⟨["Name", "Email"], [[Val.vstr "A", Val.null], [Val.vstr "B", Val.null]]⟩ [] 1 (by decide)⟩

/-- C1 counterexample: the email "john@example.c" (one-letter TLD) passes
the loose validation of `fix_emails` and survives cleaning, yet fails the
strict valid-email pattern of §4.1. -/
theorem C1_counterexample :
    (fix_emails (⟨["Email"], [[Val.vstr "john@example.c"]]⟩, [])).1.rows
        = [[Val.vstr "john@example.c"]] ∧
    is_valid_email (Val.vstr "john@example.c") = false := by decide

/-- C1 amended: after `fix_emails`, every remaining row's Email matches the
loose pattern the code actually validates against —
`re.match(r"[^@]+@[^@]+\.[^@]+", email)` — and rows failing it are
dropped; matching the strict §4.1 pattern is not guaranteed. -/
theorem C1_surviving_emails_match_loose_pattern (df : DF) (log : List String) (i : Nat)
    (hi : findIdx "Email" df.cols = some i) (r : List Val)
    (hr : r ∈ (fix_emails (df, log)).1.rows) :
    ∃ e, r.getD i Val.null = Val.vstr e ∧ matchBasicEmail e = true := by
  simp only [fix_emails, hi] at hr
  rw [List.mem_filter] at hr
  obtain ⟨hmem, hp⟩ := hr
  rw [List.mem_map] at hmem
  obtain ⟨r0, _, rfl⟩ := hmem
  cases hc : clean_email (r0.getD i Val.null) with
  | none =>
    exfalso
    rw [hc] at hp
    rw [decide_eq_true_iff] at hp
    by_cases hlen : i < r0.length
    · exact hp (getD_set_self r0 i _ Val.null hlen)
    · exact hp (getD_set_of_le r0 i _ Val.null (Nat.le_of_not_lt hlen))
  | some e =>
    by_cases hlen : i < r0.length
    · exact ⟨e, getD_set_self r0 i _ Val.null hlen, clean_email_sound _ _ hc⟩
    · exfalso
      rw [decide_eq_true_iff] at hp
      exact hp (getD_set_of_le r0 i _ Val.null (Nat.le_of_not_lt hlen))

theorem C1_witness :
    findIdx "Email" ["Email"] = some 0 ∧
    [Val.vstr "bob@test.com"] ∈
      (fix_emails (⟨["Email"], [[Val.vstr "bob@test.com"]]⟩, [])).1.rows ∧
    ∃ e, ([Val.vstr "bob@test.com"] : List Val).getD 0 Val.null = Val.vstr e ∧
      matchBasicEmail e = true :=
  ⟨by decide, by decide,
   C1_surviving_emails_match_loose_pattern
     ⟨["Email"], [[Val.vstr "bob@test.com"]]⟩ [] 0 (by decide) _ (by decide)⟩

/-- C5 counterexample: on a dataset with no Email column (and two identical
rows), `remove_duplicates` still removes a row and still appends a log
entry — it is not a silent no-op when its target column is absent. -/
theorem C5_counterexample :
    remove_duplicates (⟨["Role"], [[Val.vstr "Member"], [Val.vstr "Member"]]⟩, []) =
      (⟨["Role"], [[Val.vstr "Member"]]⟩, ["Removed 1 duplicate rows."]) := by decide

/-- C5 amended: standardize_names, fix_emails, clean_dates and
handle_missing_values are silent no-ops when their target column is
absent; remove_duplicates is the exception — without an Email column it
still deduplicates fully identical rows and always logs. -/
theorem C5_absent_column_behavior (df : DF) (log : List String) :
    ("Name" ∉ df.cols → standardize_names (df, log) = (df, log)) ∧
    ("Email" ∉ df.cols → fix_emails (df, log) = (df, log)) ∧
    ("Join_Date" ∉ df.cols → clean_dates (df, log) = (df, log)) ∧
    ("Event_Attendance" ∉ df.cols → handle_missing_values (df, log) = (df, log)) ∧
    ("Email" ∉ df.cols →
      remove_duplicates (df, log) =
        ({ df with rows := keepFirstBy id [] df.rows },
         log ++ ["Removed " ++ toString (df.rows.length - (keepFirstBy id [] df.rows).length)
             ++ " duplicate rows."])) := by
  refine ⟨?_, ?_, ?_, ?_, ?_⟩
  · intro h; simp [standardize_names, findIdx_eq_none _ _ h]
  · intro h; simp [fix_emails, findIdx_eq_none _ _ h]
  · intro h; simp [clean_dates, findIdx_eq_none _ _ h]
  · intro h; simp [handle_missing_values, findIdx_eq_none _ _ h]
  · intro h; simp [remove_duplicates, dedupRows, findIdx_eq_none _ _ h]; rfl

theorem C5_witness :
    standardize_names (⟨["Role"], [[Val.vstr "Member"]]⟩, []) =
        (⟨["Role"], [[Val.vstr "Member"]]⟩, []) ∧
    fix_emails (⟨["Role"], [[Val.vstr "Member"]]⟩, []) =
        (⟨["Role"], [[Val.vstr "Member"]]⟩, []) ∧
    clean_dates (⟨["Role"], [[Val.vstr "Member"]]⟩, []) =
        (⟨["Role"], [[Val.vstr "Member"]]⟩, []) ∧
    handle_missing_values (⟨["Role"], [[Val.vstr "Member"]]⟩, []) =
        (⟨["Role"], [[Val.vstr "Member"]]⟩, []) ∧
    remove_duplicates (⟨["Role"], [[Val.vstr "Member"]]⟩, []) =
        (⟨["Role"], [[Val.vstr "Member"]]⟩,
         ["Removed " ++ toString ((1 : Nat) - (keepFirstBy id []
             [[Val.vstr "Member"]]).length) ++ " duplicate rows."]) := by
  obtain ⟨h1, h2, h3, h4, h5⟩ := C5_absent_column_behavior ⟨["Role"], [[Val.vstr "Member"]]⟩ []
  exact ⟨h1 (by decide), h2 (by decide), h3 (by decide), h4 (by decide),
    (h5 (by decide)).trans (by decide)⟩

/-- C4 counterexample: with Join_Date column ["2023-05-01", "2023-01-01",
"Unknown"] the two valid dates tie for most frequent and the
first-encountered one is 2023-05-01, yet the missing row is imputed with
2023-01-01 — `Series.mode()[0]` picks the smallest tied value, not the
first-encountered one. -/
theorem C4_counterexample :
    (clean_dates (⟨["Join_Date"],
        [[Val.vstr "2023-05-01"], [Val.vstr "2023-01-01"], [Val.vstr "Unknown"]]⟩, [])).1.rows =
      [[Val.vdate 20230501], [Val.vdate 20230101], [Val.vdate 20230101]] ∧
    (parsedCol ⟨["Join_Date"],
        [[Val.vstr "2023-05-01"], [Val.vstr "2023-01-01"], [Val.vstr "Unknown"]]⟩ 0).filterMap id =
      [20230501, 20230101] := by decide

/-- C4 amended: when rows are left missing after permissive parsing and the
column has at least one valid date, `clean_dates` imputes them with a most
frequent valid date, breaking ties by the smallest (earliest) value — the
first entry of the ascending-sorted pandas mode — and logs the count; when
no value in the column is valid, missing rows are left missing and the log
records that no imputation occurred. -/
theorem C4_mode_imputation (df : DF) (log : List String) (i : Nat)
    (hi : findIdx "Join_Date" df.cols = some i) :
    (((parsedCol df i).filter Option.isNone).length > 0 →
      (parsedCol df i).filterMap id ≠ [] →
      ∃ m, modeMin ((parsedCol df i).filterMap id) = some m ∧
        m ∈ (parsedCol df i).filterMap id ∧
        (∀ x ∈ (parsedCol df i).filterMap id,
          ((parsedCol df i).filterMap id).count x < ((parsedCol df i).filterMap id).count m ∨
          (((parsedCol df i).filterMap id).count x = ((parsedCol df i).filterMap id).count m ∧
            m ≤ x)) ∧
        (clean_dates (df, log)).1 =
          { df with rows := df.rows.map (fun r =>
              r.set i (match parseDate (r.getD i Val.null) with
                       | none => Val.vdate m
                       | some d => Val.vdate d)) } ∧
        (clean_dates (df, log)).2 =
          log ++ ["Standardized Dates. Imputed " ++
            toString ((parsedCol df i).filter Option.isNone).length ++
            " missing/bad dates with mode."]) ∧
    ((parsedCol df i).filterMap id = [] →
      (clean_dates (df, log)).1 =
        { df with rows := df.rows.map (fun r =>
            r.set i (match parseDate (r.getD i Val.null) with
                     | none => Val.null
                     | some d => Val.vdate d)) } ∧
      (clean_dates (df, log)).2 =
        log ++ ["Standardized Dates. No missing values found or mode undefined."]) := by
  constructor
  · intro hmiss hvalid
    obtain ⟨m, hm⟩ := Option.isSome_iff_exists.mp (modeMin_isSome _ hvalid)
    obtain ⟨hmem, hcount⟩ := modeMin_spec _ m hm
    refine ⟨m, hm, hmem, hcount, ?_, ?_⟩
    · simp only [clean_dates, hi, parsedCol] at hmiss hvalid ⊢
      rw [if_pos ⟨hmiss, hvalid⟩]
      simp only [parsedCol] at hm
      rw [hm]
      simp only [zip_map_self, List.map_map]
      refine congrArg (fun rs => DF.mk df.cols rs) ?_
      refine List.map_congr_left ?_
      intro r _
      exact fillCell_eq r i (parseDate (r.getD i Val.null)) m
    · simp only [clean_dates, hi, parsedCol] at hmiss hvalid ⊢
      rw [if_pos ⟨hmiss, hvalid⟩]
      simp only [parsedCol] at hm
      rw [hm]
      rfl
  · intro hvd
    have hcond : ¬ ((((parsedCol df i).filter Option.isNone).length > 0) ∧
        (parsedCol df i).filterMap id ≠ []) := by
      intro hc
      exact hc.2 hvd
    constructor
    · simp only [clean_dates, hi, parsedCol] at hcond ⊢
      rw [if_neg hcond]
      simp only [zip_map_self]
    · simp only [clean_dates, hi, parsedCol] at hcond ⊢
      rw [if_neg hcond]

theorem C4_witness :
    findIdx "Join_Date" ["Join_Date"] = some 0 ∧
    ((parsedCol ⟨["Join_Date"], [[Val.vstr "Unknown"], [Val.vstr "2023-01-15"]]⟩ 0).filter
        Option.isNone).length > 0 ∧
    (parsedCol ⟨["Join_Date"], [[Val.vstr "Unknown"], [Val.vstr "2023-01-15"]]⟩ 0).filterMap id
      ≠ [] ∧
    ∃ m, modeMin ((parsedCol ⟨["Join_Date"],
          [[Val.vstr "Unknown"], [Val.vstr "2023-01-15"]]⟩ 0).filterMap id) = some m ∧
      m ∈ (parsedCol ⟨["Join_Date"], [[Val.vstr "Unknown"], [Val.vstr "2023-01-15"]]⟩ 0).filterMap
          id ∧
      (∀ x ∈ (parsedCol ⟨["Join_Date"],
          [[Val.vstr "Unknown"], [Val.vstr "2023-01-15"]]⟩ 0).filterMap id,
        ((parsedCol ⟨["Join_Date"], [[Val.vstr "Unknown"],
            [Val.vstr "2023-01-15"]]⟩ 0).filterMap id).count x <
          ((parsedCol ⟨["Join_Date"], [[Val.vstr "Unknown"],
            [Val.vstr "2023-01-15"]]⟩ 0).filterMap id).count m ∨
        (((parsedCol ⟨["Join_Date"], [[Val.vstr "Unknown"],
            [Val.vstr "2023-01-15"]]⟩ 0).filterMap id).count x =
          ((parsedCol ⟨["Join_Date"], [[Val.vstr "Unknown"],
            [Val.vstr "2023-01-15"]]⟩ 0).filterMap id).count m ∧ m ≤ x)) ∧
      (clean_dates (⟨["Join_Date"], [[Val.vstr "Unknown"], [Val.vstr "2023-01-15"]]⟩, [])).1 =
        { cols := ["Join_Date"],
          rows := ([[Val.vstr "Unknown"], [Val.vstr "2023-01-15"]] : List (List Val)).map
            (fun r => r.set 0 (match parseDate (r.getD 0 Val.null) with
                               | none => Val.vdate m
                               | some d => Val.vdate d)) } ∧
      (clean_dates (⟨["Join_Date"], [[Val.vstr "Unknown"], [Val.vstr "2023-01-15"]]⟩, [])).2 =
        [] ++ ["Standardized Dates. Imputed " ++
          toString ((parsedCol ⟨["Join_Date"],
            [[Val.vstr "Unknown"], [Val.vstr "2023-01-15"]]⟩ 0).filter Option.isNone).length ++
          " missing/bad dates with mode."] :=
  ⟨by decide, by decide, by decide,
   (C4_mode_imputation ⟨["Join_Date"], [[Val.vstr "Unknown"], [Val.vstr "2023-01-15"]]⟩ [] 0
      (by decide)).1 (by decide) (by decide)⟩

theorem metrics_call_store (c : MetricCall) (σ : Store) (ref : Nat) :
    (metrics_call c σ ref).2 = σ := by
  cases c <;> rfl

theorem metrics_run_store (calls : List MetricCall) (σ : Store) (ref : Nat) :
    metrics_run calls σ ref = σ := by
  induction calls generalizing σ with
  | nil => rfl
  | cons c cs ih =>
    have h : metrics_run (c :: cs) σ ref = metrics_run cs ((metrics_call c σ ref).2) ref := rfl
    rw [h, metrics_call_store, ih]

theorem cleaner_run_frame (steps : List StepName) :
    ∀ (σ : Store) (c : CleanerObj) (j : Nat), j ≠ c.clean →
      ((cleaner_run steps (σ, c)).1).getD j dfNil = σ.getD j dfNil := by
  induction steps with
  | nil => intro σ c j _; rfl
  | cons s ss ih =>
    intro σ c j hj
    have hstep : cleaner_run (s :: ss) (σ, c) =
        cleaner_run ss (σ.set c.clean (stepFun s (σ.getD c.clean dfNil, c.log)).1,
          ⟨c.raw, c.clean, (stepFun s (σ.getD c.clean dfNil, c.log)).2⟩) := rfl
    rw [hstep]
    exact (ih _ ⟨c.raw, c.clean, (stepFun s (σ.getD c.clean dfNil, c.log)).2⟩ j hj).trans
      (getD_set_ne σ c.clean j _ dfNil (fun he => hj he.symm))

/-- C9: neither component mutates the caller's dataset: after constructing
a DataCleaner (which copies into fresh cells) and running any sequence of
cleaning steps, and after constructing a DataHealthMetrics (likewise a
copy) and running any sequence of score calls, every pre-existing store
cell — in particular the caller's dataframe — holds its original value. -/
theorem C9_no_caller_mutation (σ : Store) (caller : Nat) (steps : List StepName)
    (calls : List MetricCall) (j : Nat) (hj : j < σ.length) :
    ((cleaner_run steps (cleaner_init σ caller)).1).getD j dfNil = σ.getD j dfNil ∧
    (metrics_run calls (metrics_init σ caller).1 (metrics_init σ caller).2).getD j dfNil =
      σ.getD j dfNil := by
  constructor
  · have h1 : cleaner_init σ caller =
        (σ ++ [σ.getD caller dfNil, σ.getD caller dfNil], ⟨σ.length, σ.length + 1, []⟩) := rfl
    rw [h1, cleaner_run_frame steps _ _ j (show j ≠ σ.length + 1 by omega)]
    exact getD_append_lt _ _ j dfNil hj
  · rw [metrics_run_store]
    exact getD_append_lt _ _ j dfNil hj

theorem C9_witness :
    (0 : Nat) < ([⟨["Name"], [[Val.vstr "x"]]⟩] : Store).length ∧
    ((cleaner_run [StepName.standardizeNames, StepName.fixEmails, StepName.removeDuplicates,
          StepName.cleanDates, StepName.handleMissingValues]
        (cleaner_init [⟨["Name"], [[Val.vstr "x"]]⟩] 0)).1).getD 0 dfNil =
      ([⟨["Name"], [[Val.vstr "x"]]⟩] : Store).getD 0 dfNil ∧
    (metrics_run [MetricCall.completeness, MetricCall.duplicates, MetricCall.formatting,
          MetricCall.overall]
        (metrics_init [⟨["Name"], [[Val.vstr "x"]]⟩] 0).1
        (metrics_init [⟨["Name"], [[Val.vstr "x"]]⟩] 0).2).getD 0 dfNil =
      ([⟨["Name"], [[Val.vstr "x"]]⟩] : Store).getD 0 dfNil :=
  ⟨by decide,
   C9_no_caller_mutation [⟨["Name"], [[Val.vstr "x"]]⟩] 0
     [StepName.standardizeNames, StepName.fixEmails, StepName.removeDuplicates,
      StepName.cleanDates, StepName.handleMissingValues]
     [MetricCall.completeness, MetricCall.duplicates, MetricCall.formatting, MetricCall.overall]
     0 (by decide)⟩

end CommunityPulse
